import Mathlib

/-!
Verification development for the K_Spk v2 precedence parser
(`core/k_spk_v2_precedence_parser.py`).

The Python source is shallowly embedded below: every definition mirrors the
function of the same (snake_case) name in the source file.  Python dicts used
as symbol-table entries are modelled by the `SymbolData` structure whose
fields are exactly the keys the code reads (`meaning`, `category`,
`precedence`, `error`, `reason`); the `error` field records the truthiness of
the stored value (an absent key is falsy).  Python exceptions are modelled by
`Except`/`Option` results, and the two working stacks of the shunting-yard
builder are Lean lists with the stack top at the head.
-/

namespace KSpkV2

/-- The single-quote character as a string; used when reproducing the
Python `ParseError` message format. -/
def sq : String := (Char.ofNat 39).toString

/-- `SymbolType` enum of the source. -/
inductive SymbolType where
  | core
  | modifier
  | operator
  | delimiter
  | routing
  | temporal
deriving DecidableEq, Repr

/-- A symbol-table (rosetta) entry: the fields the parser reads from the
per-symbol metadata dict.  `error` is the truthiness of the dict entry
`error` (absent key = `false`). -/
structure SymbolData where
  meaning : Option String := none
  category : Option String := none
  precedence : Option Int := none
  error : Bool := false
  reason : Option String := none
deriving DecidableEq, Repr

/-- `KSpkToken` dataclass of the source.  `metadata` defaults to the empty
dict, i.e. the all-default `SymbolData`. -/
structure KSpkToken where
  symbol : Char
  type : SymbolType
  precedence : Int
  semantic_value : String
  position : Nat
  metadata : SymbolData := {}
deriving DecidableEq, Repr

instance : Inhabited KSpkToken :=
  ⟨{ symbol := ' ', type := SymbolType.core, precedence := 0,
     semantic_value := "", position := 0 }⟩

/-- `KSpkASTNode` dataclass of the source: a token plus an ordered list of
children.  The mutable `parent` back-pointer of the Python dataclass is not
observable in any parse result and is dropped from the pure embedding. -/
inductive KSpkASTNode where
  | node (token : KSpkToken) (children : List KSpkASTNode)

/-- The token stored at a node. -/
def KSpkASTNode.token : KSpkASTNode → KSpkToken
  | .node t _ => t

/-- The children list of a node. -/
def KSpkASTNode.children : KSpkASTNode → List KSpkASTNode
  | .node _ cs => cs

instance : Inhabited KSpkASTNode := ⟨KSpkASTNode.node default []⟩

/-- `ParseError` exception of the source: message plus optional position
(default `-1`) and offending symbol (default `""`). -/
structure ParseErrorE where
  message : String
  position : Int := -1
  symbol : String := ""
deriving DecidableEq, Repr

instance : Inhabited ParseErrorE := ⟨{ message := "" }⟩

/-- `str(e)` for a `ParseError e`: the string built by its
`super().__init__` call. -/
def ParseErrorE.str (e : ParseErrorE) : String :=
  "Parse Error at position " ++ toString e.position ++ ": " ++ e.message ++
    " (symbol: " ++ sq ++ e.symbol ++ sq ++ ")"

/-- A rosetta table: an association list from symbol character to its
metadata entry (a read-only Python dict in the source). -/
abbrev Rosetta := List (Char × SymbolData)

/-- Dict lookup `rosetta[symbol]` guarded by `symbol in rosetta`. -/
def lookupR : Rosetta → Char → Option SymbolData
  | [], _ => none
  | (k, v) :: rest, c => if k = c then some v else lookupR rest c

/-- `self.precedence_rules` of the parser constructor (accessed only at the
eight keys present in the dict). -/
def precedence_rules (category : String) : Int :=
  if category = "meta" then 0
  else if category = "routing" then 1
  else if category = "temporal" then 2
  else if category = "spatial" then 3
  else if category = "logical" then 4
  else if category = "emotional" then 5
  else if category = "core" then 6
  else if category = "modifier" then 7
  else 0

/-- `self.delimiters`: the two grouping symbols and their open/close tags. -/
def delimiters (c : Char) : Option String :=
  if c = '⟨' then some "open" else if c = '⟩' then some "close" else none

/-- `self.operators`: the fixed operator symbol set. -/
def operators : List Char := ['⊕', '⊗', '⊙', '∧', '∨', '→']

/-- Python substring test `pat in hay` on strings. -/
def strHas (hay pat : String) : Bool :=
  (List.range (hay.toList.length + 1)).any fun i =>
    pat.toList.isPrefixOf (hay.toList.drop i)

/-- Python `str.lower` (ASCII case folding suffices for the category
strings the source compares against). -/
def pyLower (s : String) : String := String.mk (s.toList.map Char.toLower)

/-- Python `str.isspace` for a single character (ASCII whitespace; the
source never feeds the parser non-ASCII whitespace). -/
def isSpacePy (c : Char) : Bool :=
  c = ' ' || c = '\t' || c = '\n' || c.toNat = 13 || c.toNat = 11 || c.toNat = 12

/-- `_classify_symbol`: category-substring driven classification. -/
def classify_symbol (d : SymbolData) : SymbolType :=
  let category := pyLower (d.category.getD "")
  if strHas category "temporal" || strHas category "time" then SymbolType.temporal
  else if strHas category "modifier" || strHas category "dimensional" then SymbolType.modifier
  else if strHas category "operator" || strHas category "logical" then SymbolType.operator
  else if strHas category "routing" || strHas category "agent" then SymbolType.routing
  else SymbolType.core

/-- `type_to_category` dict inside `_get_precedence` (every `SymbolType`
has an entry, so the `.get` default `core` is unreachable). -/
def type_to_category : SymbolType → String
  | SymbolType.delimiter => "meta"
  | SymbolType.routing => "routing"
  | SymbolType.temporal => "temporal"
  | SymbolType.operator => "logical"
  | SymbolType.core => "core"
  | SymbolType.modifier => "modifier"

/-- `_get_precedence`: explicit per-entry override first, else the
type-based category precedence. -/
def get_precedence (d : SymbolData) (t : SymbolType) : Int :=
  match d.precedence with
  | some p => p
  | none => precedence_rules (type_to_category t)

/-- `_create_token`: delimiter check, then fixed operator set, then rosetta
lookup; `none` models the `KeyError` raised for an unknown symbol. -/
def create_token (r : Rosetta) (symbol : Char) (position : Nat) : Option KSpkToken :=
  match delimiters symbol with
  | some d =>
    some { symbol := symbol, type := SymbolType.delimiter,
           precedence := precedence_rules "meta",
           semantic_value := "delimiter_" ++ d, position := position }
  | none =>
    if operators.contains symbol then
      some { symbol := symbol, type := SymbolType.operator,
             precedence := precedence_rules "logical",
             semantic_value := "operator_" ++ symbol.toString, position := position }
    else
      match lookupR r symbol with
      | some d =>
        some { symbol := symbol, type := classify_symbol d,
               precedence := get_precedence d (classify_symbol d),
               semantic_value := d.meaning.getD symbol.toString,
               position := position, metadata := d }
      | none => none

/-- The flagged placeholder token built in the `except KeyError` arm of
`tokenize` for an unknown symbol. -/
def mkUnknownToken (c : Char) (pos : Nat) : KSpkToken :=
  { symbol := c, type := SymbolType.core, precedence := 10,
    semantic_value := "UNKNOWN_SYMBOL:" ++ c.toString, position := pos,
    metadata := { error := true, reason := some "unknown_symbol" } }

/-- The character loop of `tokenize`: skip whitespace (still advancing the
position counter), otherwise emit the classified token or the unknown-symbol
placeholder, and continue. -/
def tokenizeLoop (r : Rosetta) : List Char → Nat → List KSpkToken
  | [], _ => []
  | c :: rest, pos =>
    if isSpacePy c then tokenizeLoop r rest (pos + 1)
    else
      (match create_token r c pos with
       | some t => t
       | none => mkUnknownToken c pos) :: tokenizeLoop r rest (pos + 1)

/-- `tokenize`: the `strip`-emptiness early return, then the character
loop starting at position 0. -/
def tokenize (r : Rosetta) (s : String) : List KSpkToken :=
  if s.toList.all isSpacePy then [] else tokenizeLoop r s.toList 0

/-- The body of `_pop_operator_to_output` once the popped token `t` is in
hand: build the node (two children when the token is an `OPERATOR` and two
operands are available, one child when one is, childless otherwise — and
childless for any non-operator token) and push it onto the operand stack. -/
def popOpNode (t : KSpkToken) (outs : List KSpkASTNode) : List KSpkASTNode :=
  if t.type = SymbolType.operator then
    match outs with
    | r :: l :: rest => KSpkASTNode.node t [l, r] :: rest
    | [c] => [KSpkASTNode.node t [c]]
    | [] => [KSpkASTNode.node t []]
  else KSpkASTNode.node t [] :: outs

/-- `_pop_operator_to_output`: early return on an empty operator stack,
otherwise pop the top token and push the node it reduces to. -/
def pop_operator_to_output (opStack : List KSpkToken) (outStack : List KSpkASTNode) :
    List KSpkToken × List KSpkASTNode :=
  match opStack with
  | [] => ([], outStack)
  | t :: rest => (rest, popOpNode t outStack)

/-- The close-delimiter loop of `_build_expression_tree`: pop-and-reduce
until the stack top is the open delimiter (which is then discarded);
`none` models the raise when the stack empties first. -/
def popUntilOpen : List KSpkToken → List KSpkASTNode →
    Option (List KSpkToken × List KSpkASTNode)
  | [], _ => none
  | t :: rest, outs =>
    if t.symbol = '⟨' then some (rest, outs)
    else popUntilOpen rest (popOpNode t outs)

/-- The operator-arrival loop of `_build_expression_tree`: pop-and-reduce
while the stack top is not an open delimiter and its precedence is
numerically `≤` the incoming precedence `p`. -/
def popWhileGE (p : Int) : List KSpkToken → List KSpkASTNode →
    List KSpkToken × List KSpkASTNode
  | [], outs => ([], outs)
  | t :: rest, outs =>
    if t.symbol ≠ '⟨' ∧ t.precedence ≤ p then popWhileGE p rest (popOpNode t outs)
    else (t :: rest, outs)

/-- The final drain loop of `_build_expression_tree`: pop-and-reduce the
remaining operator stack, failing if an open delimiter is found. -/
def drainOps : List KSpkToken → List KSpkASTNode →
    Except ParseErrorE (List KSpkASTNode)
  | [], outs => Except.ok outs
  | t :: rest, outs =>
    if t.symbol = '⟨' then
      Except.error { message := "Mismatched opening delimiter" }
    else drainOps rest (popOpNode t outs)

/-- The per-token dispatch loop of `_build_expression_tree` over the two
working stacks (heads are the stack tops). -/
def buildLoop : List KSpkToken → List KSpkToken → List KSpkASTNode →
    Except ParseErrorE (List KSpkToken × List KSpkASTNode)
  | [], ops, outs => Except.ok (ops, outs)
  | tok :: rest, ops, outs =>
    if tok.type = SymbolType.delimiter then
      if tok.symbol = '⟨' then buildLoop rest (tok :: ops) outs
      else if tok.symbol = '⟩' then
        match popUntilOpen ops outs with
        | none =>
          Except.error { message := "Mismatched closing delimiter",
                         position := (tok.position : Int),
                         symbol := tok.symbol.toString }
        | some (ops2, outs2) => buildLoop rest ops2 outs2
      else buildLoop rest ops outs
    else if tok.type = SymbolType.operator then
      match popWhileGE tok.precedence ops outs with
      | (ops2, outs2) => buildLoop rest (tok :: ops2) outs2
    else buildLoop rest ops (KSpkASTNode.node tok [] :: outs)

/-- `_build_expression_tree`: run the token loop from empty stacks, drain
the operator stack, and demand exactly one root candidate. -/
def build_expression_tree (tokens : List KSpkToken) :
    Except ParseErrorE KSpkASTNode :=
  match buildLoop tokens [] [] with
  | Except.error e => Except.error e
  | Except.ok (ops, outs) =>
    match drainOps ops outs with
    | Except.error e => Except.error e
    | Except.ok outs2 =>
      match outs2 with
      | [root] => Except.ok root
      | l =>
        Except.error
          { message := "Invalid expression structure: " ++ toString l.length ++
              " root nodes" }

/-- `parse_to_ast`: empty-input failure, single-token leaf shortcut, and
the `try`/`except` wrapper that re-raises any builder error as a fresh
`ParseError` whose message embeds `str(e)` (dropping the structured
position/symbol fields). -/
def parse_to_ast (tokens : List KSpkToken) : Except ParseErrorE KSpkASTNode :=
  match tokens with
  | [] => Except.error { message := "Cannot parse empty token list" }
  | [t] => Except.ok (KSpkASTNode.node t [])
  | _ =>
    match build_expression_tree tokens with
    | Except.ok root => Except.ok root
    | Except.error e =>
      Except.error { message := "Failed to build AST: " ++ e.str }

mutual

/-- `validate_ast`: one issue string per node whose token metadata has a
truthy `error` entry, root first, then the children in order. -/
def validate_ast : KSpkASTNode → List String
  | .node t cs =>
    (if t.metadata.error then ["Error token in AST: " ++ t.symbol.toString]
     else []) ++ validateChildren cs

/-- The recursive walk of `validate_ast` over a children list. -/
def validateChildren : List KSpkASTNode → List String
  | [] => []
  | c :: cs => validate_ast c ++ validateChildren cs

end

/-- `parse_k_spk_expression`: the top-level API — tokenize then parse (the
validation pass of the source only logs its issues and does not change the
returned AST, so it does not appear in the result). -/
def parse_k_spk_expression (expr : String) (r : Rosetta) :
    Except ParseErrorE KSpkASTNode :=
  parse_to_ast (tokenize r expr)

/-- The rosetta fixture of the spec's end-to-end examples (the mock table
of the repository's own tests). -/
def exampleTable : Rosetta :=
  [ ('⊕', { meaning := some "logical_operation", category := some "operator" }),
    ('⧖', { meaning := some "temporal_marker", category := some "temporal" }),
    ('♦', { meaning := some "emotional_context", category := some "modifier" }),
    ('⬢', { meaning := some "spatial_dimension", category := some "modifier" }),
    ('→', { meaning := some "agent_handoff", category := some "routing" }),
    ('⟨', { meaning := some "group_open", category := some "delimiter" }),
    ('⟩', { meaning := some "group_close", category := some "delimiter" }) ]

/-- The per-node shape condition of the AST invariant: a node is either a
leaf, or it wraps an operator/routing token and has exactly one or exactly
two children. -/
def okNode (t : KSpkToken) (cs : List KSpkASTNode) : Bool :=
  cs.isEmpty ||
    ((t.type == SymbolType.operator || t.type == SymbolType.routing) &&
     (cs.length == 1 || cs.length == 2))

mutual

/-- The AST invariant holding at a node and, recursively, at every node of
its subtree. -/
def wellShaped : KSpkASTNode → Bool
  | .node t cs => okNode t cs && wellShapedList cs

/-- `wellShaped` over a children list. -/
def wellShapedList : List KSpkASTNode → Bool
  | [] => true
  | c :: cs => wellShaped c && wellShapedList cs

end

mutual

/-- Number of nodes in a tree whose token metadata has a truthy `error`
entry (the nodes `validate_ast` reports). -/
def errCount : KSpkASTNode → Nat
  | .node t cs => (if t.metadata.error then 1 else 0) + errCountChildren cs

/-- `errCount` over a children list. -/
def errCountChildren : List KSpkASTNode → Nat
  | [] => 0
  | c :: cs => errCount c + errCountChildren cs

end

/-- The error payload of a parse result (`default` on success); used to
inspect the structured fields of a surfaced `ParseError`. -/
def errOf : Except ParseErrorE KSpkASTNode → ParseErrorE
  | Except.error e => e
  | Except.ok _ => default

/-- A table whose extra entry classifies `↝` as routing (category
`routing`, no explicit precedence, so precedence 1). -/
def routeTable : Rosetta :=
  ('↝', { meaning := some "hop", category := some "routing" }) :: exampleTable

/-- A table with a known symbol whose entry carries a truthy `error`
field, so validation flags it without any unknown-symbol placeholder. -/
def errTable : Rosetta :=
  [ ('⊖', { meaning := some "flagged_core", category := some "core",
            error := true }) ]

theorem create_token_symbol (r : Rosetta) (c : Char) (p : Nat) (t : KSpkToken)
    (h : create_token r c p = some t) : t.symbol = c := by
  unfold create_token at h
  split at h
  · simp only [Option.some.injEq] at h
    subst h; rfl
  · split at h
    · simp only [Option.some.injEq] at h
      subst h; rfl
    · split at h
      · simp only [Option.some.injEq] at h
        subst h; rfl
      · exact absurd h (by simp)

theorem create_token_unknown (r : Rosetta) (c : Char) (p : Nat)
    (h1 : delimiters c = none) (h2 : operators.contains c = false)
    (h3 : lookupR r c = none) : create_token r c p = none := by
  have h2' : c ∉ operators := by simpa using h2
  simp [create_token, h1, h2', h3]

theorem create_token_rosetta (r : Rosetta) (c : Char) (p : Nat) (d : SymbolData)
    (h1 : delimiters c = none) (h2 : operators.contains c = false)
    (h3 : lookupR r c = some d) :
    create_token r c p =
      some { symbol := c, type := classify_symbol d,
             precedence := get_precedence d (classify_symbol d),
             semantic_value := d.meaning.getD c.toString,
             position := p, metadata := d } := by
  have h2' : c ∉ operators := by simpa using h2
  simp [create_token, h1, h2', h3]

theorem tokenizeLoop_length (r : Rosetta) :
    ∀ (cs : List Char) (pos : Nat),
      (tokenizeLoop r cs pos).length =
        (cs.filter (fun c => !isSpacePy c)).length := by
  intro cs
  induction cs with
  | nil => intro pos; rfl
  | cons c rest ih =>
    intro pos
    unfold tokenizeLoop
    cases h : isSpacePy c with
    | true => simpa [h] using ih (pos + 1)
    | false => simpa [h] using ih (pos + 1)

theorem tokenize_length (r : Rosetta) (s : String) :
    (tokenize r s).length = (s.toList.filter (fun c => !isSpacePy c)).length := by
  unfold tokenize
  split
  · rename_i h
    simp only [List.all_eq_true] at h
    rw [List.filter_eq_nil_iff.mpr (by intro a ha; simpa using h a ha)]
    rfl
  · exact tokenizeLoop_length r s.toList 0

theorem tokenizeLoop_unknown_shape (r : Rosetta) :
    ∀ (cs : List Char) (pos : Nat) (tok : KSpkToken),
      tok ∈ tokenizeLoop r cs pos → delimiters tok.symbol = none →
      operators.contains tok.symbol = false → lookupR r tok.symbol = none →
      tok.type = SymbolType.core ∧ tok.precedence = 10 ∧
        tok.metadata.error = true ∧
        tok.semantic_value = "UNKNOWN_SYMBOL:" ++ tok.symbol.toString := by
  intro cs
  induction cs with
  | nil => intro pos tok hm; simp [tokenizeLoop] at hm
  | cons c rest ih =>
    intro pos tok hm h1 h2 h3
    unfold tokenizeLoop at hm
    by_cases hs : isSpacePy c
    · rw [if_pos hs] at hm
      exact ih (pos + 1) tok hm h1 h2 h3
    · rw [if_neg hs] at hm
      rcases List.mem_cons.mp hm with hhead | htail
      · cases hc : create_token r c pos with
        | some t =>
          rw [hc] at hhead
          subst hhead
          have hsym : tok.symbol = c := create_token_symbol r c pos tok hc
          rw [hsym] at h1 h2 h3
          rw [create_token_unknown r c pos h1 h2 h3] at hc
          exact absurd hc (by simp)
        | none =>
          rw [hc] at hhead
          subst hhead
          exact ⟨rfl, rfl, rfl, rfl⟩
      · exact ih (pos + 1) tok htail h1 h2 h3

theorem tokenizeLoop_metadata (r : Rosetta) :
    ∀ (cs : List Char) (pos : Nat) (tok : KSpkToken) (d : SymbolData),
      tok ∈ tokenizeLoop r cs pos → delimiters tok.symbol = none →
      operators.contains tok.symbol = false → lookupR r tok.symbol = some d →
      tok.metadata = d := by
  intro cs
  induction cs with
  | nil => intro pos tok d hm; simp [tokenizeLoop] at hm
  | cons c rest ih =>
    intro pos tok d hm h1 h2 h3
    unfold tokenizeLoop at hm
    by_cases hs : isSpacePy c
    · rw [if_pos hs] at hm
      exact ih (pos + 1) tok d hm h1 h2 h3
    · rw [if_neg hs] at hm
      rcases List.mem_cons.mp hm with hhead | htail
      · cases hc : create_token r c pos with
        | some t =>
          rw [hc] at hhead
          subst hhead
          have hsym : tok.symbol = c := create_token_symbol r c pos tok hc
          rw [hsym] at h1 h2 h3
          rw [create_token_rosetta r c pos d h1 h2 h3] at hc
          simp only [Option.some.injEq] at hc
          rw [← hc]
        | none =>
          rw [hc] at hhead
          subst hhead
          have h1' : delimiters c = none := by simpa [mkUnknownToken] using h1
          have h2' : operators.contains c = false := by
            simpa [mkUnknownToken] using h2
          have h3' : lookupR r c = some d := by simpa [mkUnknownToken] using h3
          have hsome := create_token_rosetta r c pos d h1' h2' h3'
          rw [hc] at hsome
          exact absurd hsome (by simp)
      · exact ih (pos + 1) tok d htail h1 h2 h3

theorem leaf_wellShaped (t : KSpkToken) : wellShaped (KSpkASTNode.node t []) = true := by
  simp [wellShaped, wellShapedList, okNode]

theorem wellShapedList_cons (n : KSpkASTNode) (l : List KSpkASTNode) :
    wellShapedList (n :: l) = (wellShaped n && wellShapedList l) := by
  simp [wellShapedList]

theorem popOpNode_shaped (t : KSpkToken) (outs : List KSpkASTNode)
    (h : wellShapedList outs = true) :
    wellShapedList (popOpNode t outs) = true := by
  unfold popOpNode
  split
  · rename_i hop
    rcases outs with _ | ⟨a, _ | ⟨b, rest⟩⟩ <;>
      simp_all [wellShapedList, wellShaped, okNode]
  · simp_all [wellShapedList, wellShaped, okNode]

theorem popWhileGE_shaped (p : Int) :
    ∀ (ops : List KSpkToken) (outs : List KSpkASTNode),
      wellShapedList outs = true →
      wellShapedList (popWhileGE p ops outs).2 = true := by
  intro ops
  induction ops with
  | nil => intro outs h; simpa [popWhileGE] using h
  | cons t rest ih =>
    intro outs h
    unfold popWhileGE
    split
    · exact ih (popOpNode t outs) (popOpNode_shaped t outs h)
    · simpa using h

theorem popUntilOpen_shaped :
    ∀ (ops : List KSpkToken) (outs : List KSpkASTNode)
      (ops2 : List KSpkToken) (outs2 : List KSpkASTNode),
      wellShapedList outs = true → popUntilOpen ops outs = some (ops2, outs2) →
      wellShapedList outs2 = true := by
  intro ops
  induction ops with
  | nil => intro outs ops2 outs2 h hp; simp [popUntilOpen] at hp
  | cons t rest ih =>
    intro outs ops2 outs2 h hp
    unfold popUntilOpen at hp
    split at hp
    · simp only [Option.some.injEq, Prod.mk.injEq] at hp
      rw [← hp.2]
      exact h
    · exact ih (popOpNode t outs) ops2 outs2 (popOpNode_shaped t outs h) hp

theorem drainOps_shaped :
    ∀ (ops : List KSpkToken) (outs outs2 : List KSpkASTNode),
      wellShapedList outs = true → drainOps ops outs = Except.ok outs2 →
      wellShapedList outs2 = true := by
  intro ops
  induction ops with
  | nil =>
    intro outs outs2 h hd
    simp only [drainOps, Except.ok.injEq] at hd
    rw [← hd]; exact h
  | cons t rest ih =>
    intro outs outs2 h hd
    unfold drainOps at hd
    split at hd
    · exact absurd hd (by simp)
    · exact ih (popOpNode t outs) outs2 (popOpNode_shaped t outs h) hd

theorem buildLoop_shaped :
    ∀ (toks ops : List KSpkToken) (outs : List KSpkASTNode)
      (ops2 : List KSpkToken) (outs2 : List KSpkASTNode),
      wellShapedList outs = true →
      buildLoop toks ops outs = Except.ok (ops2, outs2) →
      wellShapedList outs2 = true := by
  intro toks
  induction toks with
  | nil =>
    intro ops outs ops2 outs2 h hb
    simp only [buildLoop, Except.ok.injEq, Prod.mk.injEq] at hb
    rw [← hb.2]; exact h
  | cons tok rest ih =>
    intro ops outs ops2 outs2 h hb
    unfold buildLoop at hb
    split at hb
    · split at hb
      · exact ih (tok :: ops) outs ops2 outs2 h hb
      · split at hb
        · split at hb
          · exact absurd hb (by simp)
          · rename_i opsA outsA heq
            exact ih opsA outsA ops2 outs2
              (popUntilOpen_shaped ops outs opsA outsA h heq) hb
        · exact ih ops outs ops2 outs2 h hb
    · split at hb
      · rename_i hopty
        exact ih (tok :: (popWhileGE tok.precedence ops outs).1)
          (popWhileGE tok.precedence ops outs).2 ops2 outs2
          (popWhileGE_shaped tok.precedence ops outs h) (by
            rw [← hb])
      · exact ih ops (KSpkASTNode.node tok [] :: outs) ops2 outs2
          (by rw [wellShapedList_cons, leaf_wellShaped, h]; rfl) hb

mutual

theorem validate_ast_length : ∀ n : KSpkASTNode, (validate_ast n).length = errCount n
  | .node t cs => by
    unfold validate_ast errCount
    rw [List.length_append, validateChildren_length cs]
    cases h : t.metadata.error <;> simp

theorem validateChildren_length :
    ∀ l : List KSpkASTNode, (validateChildren l).length = errCountChildren l
  | [] => by simp [validateChildren, errCountChildren]
  | c :: cs => by
    unfold validateChildren errCountChildren
    rw [List.length_append, validate_ast_length c, validateChildren_length cs]

end

/-- C1: the spec's end-to-end example demands that `"⟨⊕⧖⟩♦"` parse without
error to a tree rooted at the `♦` modifier token with the grouped `⊕⧖`
reduction as its one child.  On the code this is false: `♦` is classified
`Modifier` and pushed onto the operand stack as a second root candidate, so
the build terminates with two root nodes and `parse` raises a `ParseError`
(wrapped by `parse_to_ast`).  This theorem evaluates the code at the failing
input; the repository's own `test_grouped_expression` asserts this very input
parses, so the claim records a code bug. -/
theorem C1_grouped_modifier_example_fails :
    parse_k_spk_expression "⟨⊕⧖⟩♦" exampleTable =
      Except.error
        { message := "Failed to build AST: " ++
            ParseErrorE.str
              { message := "Invalid expression structure: 2 root nodes" } } := by
  rfl

/-- C2: the claim says `→` is classified routing with precedence 1 and that
routing-classified tokens are treated as operators for tree shaping.  On the
code this is false: the fixed operator set is consulted before the rosetta
table, so `→` tokenizes as `Operator` with the logical precedence 4, and the
parse of `"→⊕⧖"` roots at `⊕` (with a childless `→` node as left child) —
contradicting the repository's own `test_agent_handoff`, which asserts the
root is `→`.  A token that really is classified `Routing` (here `↝` from
`routeTable`) is pushed as an operand leaf, not onto the operator stack.
This theorem evaluates the code at those inputs. -/
theorem C2_arrow_is_operator_not_routing :
    tokenize exampleTable "→" =
      [{ symbol := '→', type := SymbolType.operator, precedence := 4,
         semantic_value := "operator_→", position := 0 }] ∧
    parse_k_spk_expression "→⊕⧖" exampleTable =
      Except.ok (KSpkASTNode.node
        { symbol := '⊕', type := SymbolType.operator, precedence := 4,
          semantic_value := "operator_⊕", position := 1 }
        [KSpkASTNode.node
           { symbol := '→', type := SymbolType.operator, precedence := 4,
             semantic_value := "operator_→", position := 0 } [],
         KSpkASTNode.node
           { symbol := '⧖', type := SymbolType.temporal, precedence := 2,
             semantic_value := "temporal_marker", position := 2,
             metadata := { meaning := some "temporal_marker",
                           category := some "temporal" } } []]) ∧
    parse_k_spk_expression "↝⊕⧖" routeTable =
      Except.ok (KSpkASTNode.node
        { symbol := '⊕', type := SymbolType.operator, precedence := 4,
          semantic_value := "operator_⊕", position := 1 }
        [KSpkASTNode.node
           { symbol := '↝', type := SymbolType.routing, precedence := 1,
             semantic_value := "hop", position := 0,
             metadata := { meaning := some "hop",
                           category := some "routing" } } [],
         KSpkASTNode.node
           { symbol := '⧖', type := SymbolType.temporal, precedence := 2,
             semantic_value := "temporal_marker", position := 2,
             metadata := { meaning := some "temporal_marker",
                           category := some "temporal" } } []]) := by
  exact ⟨rfl, rfl, rfl⟩

/-- C3: unknown symbols never abort tokenization — every non-whitespace
character yields exactly one token, and a character absent from the
delimiter set, the operator set, and the table yields a Core token with
lowest precedence (10), an error flag, and the `UNKNOWN_SYMBOL` semantic
value; the operator-unknown-operator example `"⊕X⊗"` parses to completion
and validation reports exactly the one issue for `X`. -/
theorem C3_unknown_symbols_never_abort :
    (∀ (r : Rosetta) (s : String),
        (tokenize r s).length =
          (s.toList.filter (fun c => !isSpacePy c)).length) ∧
    (∀ (r : Rosetta) (s : String) (tok : KSpkToken),
        tok ∈ tokenize r s → delimiters tok.symbol = none →
        operators.contains tok.symbol = false →
        lookupR r tok.symbol = none →
        tok.type = SymbolType.core ∧ tok.precedence = 10 ∧
          tok.metadata.error = true ∧
          tok.semantic_value = "UNKNOWN_SYMBOL:" ++ tok.symbol.toString) ∧
    parse_k_spk_expression "⊕X⊗" exampleTable =
      Except.ok (KSpkASTNode.node
        { symbol := '⊗', type := SymbolType.operator, precedence := 4,
          semantic_value := "operator_⊗", position := 2 }
        [KSpkASTNode.node
          { symbol := '⊕', type := SymbolType.operator, precedence := 4,
            semantic_value := "operator_⊕", position := 0 }
          [KSpkASTNode.node (mkUnknownToken 'X' 1) []]]) ∧
    validate_ast (KSpkASTNode.node
        { symbol := '⊗', type := SymbolType.operator, precedence := 4,
          semantic_value := "operator_⊗", position := 2 }
        [KSpkASTNode.node
          { symbol := '⊕', type := SymbolType.operator, precedence := 4,
            semantic_value := "operator_⊕", position := 0 }
          [KSpkASTNode.node (mkUnknownToken 'X' 1) []]]) =
      ["Error token in AST: X"] := by
  refine ⟨tokenize_length, ?_, rfl, rfl⟩
  intro r s tok hm h1 h2 h3
  unfold tokenize at hm
  by_cases hall : s.toList.all isSpacePy
  · rw [if_pos hall] at hm
    exact absurd hm (by simp)
  · rw [if_neg hall] at hm
    exact tokenizeLoop_unknown_shape r s.toList 0 tok hm h1 h2 h3

/-- C3 witness: the unknown-symbol token `X` of `"⊕X⊗"` has the claimed
Core/lowest-precedence/error-flag shape. -/
theorem C3_unknown_symbols_never_abort_witness :
    (mkUnknownToken 'X' 1).type = SymbolType.core ∧
    (mkUnknownToken 'X' 1).precedence = 10 ∧
    (mkUnknownToken 'X' 1).metadata.error = true ∧
    (mkUnknownToken 'X' 1).semantic_value =
      "UNKNOWN_SYMBOL:" ++ (mkUnknownToken 'X' 1).symbol.toString :=
  C3_unknown_symbols_never_abort.2.1 exampleTable "⊕X⊗" (mkUnknownToken 'X' 1)
    (by decide) (by decide) (by decide) (by decide)

/-- C4: the unbalanced-grouping failures — an input starting with an
unmatched close delimiter fails with the mismatched-closing `ParseError`
(raised when the operator stack empties while looking for `⟨`), an input
ending with an unmatched open delimiter fails with the mismatched-opening
`ParseError` (raised when `⟨` remains on the stack after all tokens), and
the balanced variant parses successfully. -/
theorem C4_mismatched_delimiter_failures :
    parse_k_spk_expression "⟩⧖" exampleTable =
      Except.error
        { message := "Failed to build AST: " ++
            ParseErrorE.str
              { message := "Mismatched closing delimiter",
                position := 0, symbol := "⟩" } } ∧
    parse_k_spk_expression "⟨⊕⧖" exampleTable =
      Except.error
        { message := "Failed to build AST: " ++
            ParseErrorE.str { message := "Mismatched opening delimiter" } } ∧
    parse_k_spk_expression "⟨⊕⧖⟩" exampleTable =
      Except.ok (KSpkASTNode.node
        { symbol := '⊕', type := SymbolType.operator, precedence := 4,
          semantic_value := "operator_⊕", position := 1 }
        [KSpkASTNode.node
          { symbol := '⧖', type := SymbolType.temporal, precedence := 2,
            semantic_value := "temporal_marker", position := 2,
            metadata := { meaning := some "temporal_marker",
                          category := some "temporal" } } []]) := by
  exact ⟨rfl, rfl, rfl⟩

/-- C5: every all-whitespace string (including the empty string) tokenizes
to the empty token sequence, and parsing an empty token sequence fails with
the empty-input `ParseError`. -/
theorem C5_whitespace_empty_tokens :
    (∀ (r : Rosetta) (s : String), s.toList.all isSpacePy = true →
        tokenize r s = []) ∧
    parse_to_ast [] =
      Except.error { message := "Cannot parse empty token list" } := by
  constructor
  · intro r s h
    unfold tokenize
    rw [if_pos h]
  · rfl

/-- C5 witness: a concrete all-whitespace string tokenizes to `[]`. -/
theorem C5_whitespace_empty_tokens_witness :
    tokenize exampleTable " \t " = [] :=
  C5_whitespace_empty_tokens.1 exampleTable " \t " (by decide)

/-- C6: for every single non-whitespace character, known or unknown
(delimiters and operators included), tokenize-then-parse yields exactly one
token and a single leaf node (zero children) whose token symbol is that
character — the single-token shortcut of `parse_to_ast` fires before any
stack machinery. -/
theorem C6_single_char_is_leaf (r : Rosetta) (c : Char)
    (h : isSpacePy c = false) :
    (tokenize r (String.mk [c])).length = 1 ∧
    ∀ tok ∈ tokenize r (String.mk [c]),
      tok.symbol = c ∧
      parse_to_ast (tokenize r (String.mk [c])) =
        Except.ok (KSpkASTNode.node tok []) := by
  have hall : ((String.mk [c]).toList.all isSpacePy) = false := by
    simp [h]
  have htok : tokenize r (String.mk [c]) =
      [(match create_token r c 0 with
        | some t => t
        | none => mkUnknownToken c 0)] := by
    unfold tokenize
    rw [if_neg (by simp [hall, h])]
    show tokenizeLoop r [c] 0 = _
    unfold tokenizeLoop
    rw [if_neg (by rw [h]; simp)]
    rfl
  constructor
  · rw [htok]
    rfl
  · intro tok hmem
    rw [htok] at hmem
    simp only [List.mem_singleton] at hmem
    subst hmem
    refine ⟨?_, ?_⟩
    · cases hc : create_token r c 0 with
      | some t =>
        simp only [hc]
        exact create_token_symbol r c 0 t hc
      | none => simp only [hc]; rfl
    · rw [htok]
      rfl

/-- C6 witness: the unknown single character `Z` parses to the one-leaf
tree wrapping its placeholder token. -/
theorem C6_single_char_is_leaf_witness :
    (tokenize exampleTable (String.mk ['Z'])).length = 1 ∧
    ((mkUnknownToken 'Z' 0).symbol = 'Z' ∧
      parse_to_ast (tokenize exampleTable (String.mk ['Z'])) =
        Except.ok (KSpkASTNode.node (mkUnknownToken 'Z' 0) [])) :=
  ⟨(C6_single_char_is_leaf exampleTable 'Z' (by decide)).1,
   (C6_single_char_is_leaf exampleTable 'Z' (by decide)).2
     (mkUnknownToken 'Z' 0) (by decide)⟩

/-- C7: the pop-and-reduce primitive pops exactly one token from the
operator stack and pushes one node wrapping it onto the operand stack,
taking the two topmost operands as children (the deeper one as child 0,
the topmost as child 1) when two are available, the sole operand as only
child when one is, and no children when none are: uniformly, the children
are `(outs.take 2).reverse` and the rest of the operand stack survives. -/
theorem C7_pop_and_reduce (t : KSpkToken) (ops : List KSpkToken)
    (outs : List KSpkASTNode) (h : t.type = SymbolType.operator) :
    pop_operator_to_output (t :: ops) outs =
      (ops, KSpkASTNode.node t (outs.take 2).reverse :: outs.drop 2) := by
  rcases outs with _ | ⟨a, _ | ⟨b, rest⟩⟩ <;>
    simp [pop_operator_to_output, popOpNode, h]

/-- C7 witness: popping `⊕` over a two-operand stack attaches the deeper
leaf as child 0 and the top leaf as child 1. -/
theorem C7_pop_and_reduce_witness :
    pop_operator_to_output
        [{ symbol := '⊕', type := SymbolType.operator, precedence := 4,
           semantic_value := "operator_⊕", position := 1 }]
        [KSpkASTNode.node (mkUnknownToken 'b' 2) [],
         KSpkASTNode.node (mkUnknownToken 'a' 0) []] =
      ([], [KSpkASTNode.node
        { symbol := '⊕', type := SymbolType.operator, precedence := 4,
          semantic_value := "operator_⊕", position := 1 }
        [KSpkASTNode.node (mkUnknownToken 'a' 0) [],
         KSpkASTNode.node (mkUnknownToken 'b' 2) []]]) :=
  C7_pop_and_reduce _ [] _ rfl

/-- C8 counterexample: the claim that the mismatched-close `ParseError`
surfaced to the caller of parse carries the delimiter's symbol and source
position is false at `"⟩⊕"`: the close delimiter sits at position 0 with
symbol `⟩`, but the surfaced error's structured fields are the defaults
`-1` and `""` (the `try`/`except` wrapper of `parse_to_ast` re-raises a
fresh `ParseError` built from the message text only). -/
theorem C8_wrapped_error_loses_fields :
    parse_k_spk_expression "⟩⊕" exampleTable =
      Except.error
        { message := "Failed to build AST: " ++
            ParseErrorE.str
              { message := "Mismatched closing delimiter",
                position := 0, symbol := "⟩" } } ∧
    (errOf (parse_k_spk_expression "⟩⊕" exampleTable)).position ≠ 0 ∧
    (errOf (parse_k_spk_expression "⟩⊕" exampleTable)).symbol ≠ "⟩" := by
  refine ⟨rfl, ?_, ?_⟩ <;> decide

/-- C8 (amended): parse-level failures are explicit `ParseError` outcomes
carrying a message; for builder errors such as the mismatched close
delimiter, the offending symbol and source position reach the caller only
embedded in the message text, while the structured `position` and `symbol`
fields of the surfaced error are reset to the defaults `-1` and `""`. -/
theorem C8_error_surfacing_amended :
    parse_k_spk_expression "⟩⊕" exampleTable =
      Except.error
        { message := "Failed to build AST: " ++
            ParseErrorE.str
              { message := "Mismatched closing delimiter",
                position := 0, symbol := "⟩" },
          position := -1, symbol := "" } := by
  rfl

/-- C9: every tree returned by parse satisfies the shape invariant at every
node — a node either is a leaf, or wraps an operator/routing token and has
exactly one or exactly two children (children attached left operand before
right operand); no node has more than two children and no node with children
wraps a Core, Modifier, Temporal, or Delimiter token.  (`wellShaped` states
exactly this per-node condition recursively over the whole tree.) -/
theorem C9_parse_tree_invariant (tokens : List KSpkToken) (root : KSpkASTNode)
    (h : parse_to_ast tokens = Except.ok root) : wellShaped root = true := by
  unfold parse_to_ast at h
  rcases tokens with _ | ⟨t1, _ | ⟨t2, rest⟩⟩
  · exact absurd h (by simp)
  · simp only [Except.ok.injEq] at h
    rw [← h]
    exact leaf_wellShaped t1
  · cases hbt : build_expression_tree (t1 :: t2 :: rest) with
    | error e =>
      rw [hbt] at h
      exact absurd h (by simp)
    | ok root2 =>
      rw [hbt] at h
      simp only [Except.ok.injEq] at h
      subst h
      revert hbt
      unfold build_expression_tree
      cases hb : buildLoop (t1 :: t2 :: rest) [] [] with
      | error e => intro hbt; simp at hbt
      | ok pr =>
        rcases pr with ⟨ops, outs⟩
        intro hbt
        dsimp only at hbt
        cases hd : drainOps ops outs with
        | error e => rw [hd] at hbt; simp at hbt
        | ok outs2 =>
          rw [hd] at hbt
          have houts2 : wellShapedList outs2 = true :=
            drainOps_shaped ops outs outs2
              (buildLoop_shaped (t1 :: t2 :: rest) [] [] ops outs rfl hb) hd
          rcases outs2 with _ | ⟨r0, _ | ⟨r1, rest3⟩⟩
          · simp at hbt
          · simp only [Except.ok.injEq] at hbt
            rw [← hbt]
            rw [wellShapedList_cons] at houts2
            exact (Bool.and_eq_true _ _).mp houts2 |>.1
          · simp at hbt

/-- C9 witness: the tree parsed from `"→⊕⧖"` satisfies the invariant. -/
theorem C9_parse_tree_invariant_witness :
    wellShaped (KSpkASTNode.node
      { symbol := '⊕', type := SymbolType.operator, precedence := 4,
        semantic_value := "operator_⊕", position := 1 }
      [KSpkASTNode.node
         { symbol := '→', type := SymbolType.operator, precedence := 4,
           semantic_value := "operator_→", position := 0 } [],
       KSpkASTNode.node
         { symbol := '⧖', type := SymbolType.temporal, precedence := 2,
           semantic_value := "temporal_marker", position := 2,
           metadata := { meaning := some "temporal_marker",
                         category := some "temporal" } } []]) = true :=
  C9_parse_tree_invariant (tokenize exampleTable "→⊕⧖") _ rfl

/-- C10: a token built from a symbol present in the table stores the
table's entry itself as its metadata (in the pure embedding: the token's
metadata equals the looked-up entry), and validation reports one issue per
node whose token metadata carries a truthy `error` field — so a known
symbol whose table entry is error-flagged is reported even though no
unknown-symbol placeholder is involved, as the `"⊖"` example shows. -/
theorem C10_metadata_is_table_entry :
    (∀ (r : Rosetta) (s : String) (tok : KSpkToken) (d : SymbolData),
        tok ∈ tokenize r s → delimiters tok.symbol = none →
        operators.contains tok.symbol = false →
        lookupR r tok.symbol = some d → tok.metadata = d) ∧
    (∀ n : KSpkASTNode, (validate_ast n).length = errCount n) ∧
    parse_k_spk_expression "⊖" errTable =
      Except.ok (KSpkASTNode.node
        { symbol := '⊖', type := SymbolType.core, precedence := 6,
          semantic_value := "flagged_core", position := 0,
          metadata := { meaning := some "flagged_core",
                        category := some "core", error := true } } []) ∧
    validate_ast (KSpkASTNode.node
        { symbol := '⊖', type := SymbolType.core, precedence := 6,
          semantic_value := "flagged_core", position := 0,
          metadata := { meaning := some "flagged_core",
                        category := some "core", error := true } } []) =
      ["Error token in AST: ⊖"] := by
  refine ⟨?_, validate_ast_length, rfl, rfl⟩
  intro r s tok d hm h1 h2 h3
  unfold tokenize at hm
  by_cases hall : s.toList.all isSpacePy
  · rw [if_pos hall] at hm
    exact absurd hm (by simp)
  · rw [if_neg hall] at hm
    exact tokenizeLoop_metadata r s.toList 0 tok d hm h1 h2 h3

/-- C10 witness: the `⊖` token of the error-flagged table stores that
table's entry as its metadata. -/
theorem C10_metadata_is_table_entry_witness :
    ({ symbol := '⊖', type := SymbolType.core, precedence := 6,
       semantic_value := "flagged_core", position := 0,
       metadata := { meaning := some "flagged_core",
                     category := some "core", error := true } } :
        KSpkToken).metadata =
      { meaning := some "flagged_core", category := some "core",
        error := true } :=
  C10_metadata_is_table_entry.1 errTable "⊖"
    { symbol := '⊖', type := SymbolType.core, precedence := 6,
      semantic_value := "flagged_core", position := 0,
      metadata := { meaning := some "flagged_core",
                    category := some "core", error := true } }
    { meaning := some "flagged_core", category := some "core", error := true }
    (by decide) (by decide) (by decide) (by decide)

end KSpkV2
